import Mathlib

/-!
# Order handlers of `routes/orders.go`

A shallow embedding of the seven gin handlers of `src/routes/orders.go`
(`AddOrder`, `GetOrders`, `GetOrdersByWaiter`, `GetOrderById`, `UpdateWaiter`,
`UpdateOrder`, `DeleteOrder`) over an explicit model of the `orders`
collection, followed by theorems about what the handlers do.

Conventions of the embedding:

* a BSON document (`bson.M`) is an association list from keys to values, the
  collection is the list of its documents in storage order;
* a handler is a function of the environment, the request and the collection
  before the call; it returns the HTTP outcome, the collection afterwards,
  the store operations it issued, the timeout it created and whether the
  deferred `cancel` ran;
* everything the handlers obtain from outside the two source files (the JSON
  binder, the struct validator, the fresh identifier, a driver-level failure of
  the store call) is a field of `Env`.
-/

namespace Routes

/-! ## Identifiers -/

/-- The type `primitive.ObjectID`, a `[12]byte`, kept as the list of its bytes. -/
structure ObjectID where
  bytes : List Nat
deriving DecidableEq, Repr

/-- The value `primitive.NilObjectID`: the zero value of `ObjectID`. -/
def NilObjectID : ObjectID := ⟨List.replicate 12 0⟩

/-- The Go `error` values the handlers can meet. An error is only ever turned
into its text (`err.Error()`), so errors whose text comes from outside the
source files are kept by that text. -/
inductive GoError where
  /-- The value `primitive.ErrInvalidHex`. -/
  | errInvalidHex
  /-- The value `hex.InvalidByteError b`. -/
  | invalidByte (b : Nat)
  /-- The value `mongo.ErrNoDocuments`. -/
  | errNoDocuments
  /-- A write error of the server: duplicate `_id`, change of `_id`. -/
  | writeError (text : String)
  /-- Any other error, known by its text: binder, validator, driver. -/
  | other (text : String)
deriving DecidableEq, Repr

/-- The bytes of a Go string: the UTF-8 encoding of its characters. -/
def goBytes (s : String) : List Nat :=
  s.data.flatMap (fun c => (String.utf8EncodeChar c).map UInt8.toNat)

/-- The function `fromHexChar` of `encoding/hex`. -/
def fromHexChar (b : Nat) : Option Nat :=
  if 48 ≤ b ∧ b ≤ 57 then some (b - 48)
  else if 97 ≤ b ∧ b ≤ 102 then some (b - 97 + 10)
  else if 65 ≤ b ∧ b ≤ 70 then some (b - 65 + 10)
  else none

/-- The function `hex.Decode` on an input of even length: pairs of hexadecimal
digits become bytes, the first byte that is no digit is reported. -/
def hexDecode : List Nat → Except GoError (List Nat)
  | a :: b :: rest =>
    match fromHexChar a with
    | none => .error (.invalidByte a)
    | some hi =>
      match fromHexChar b with
      | none => .error (.invalidByte b)
      | some lo =>
        match hexDecode rest with
        | .error e => .error e
        | .ok out => .ok ((hi * 16 + lo) :: out)
  | _ => .ok []

/-- The function `primitive.ObjectIDFromHex`: a string of exactly 24 bytes, all
hexadecimal digits, is an identifier; anything else is an error, and the
identifier returned next to the error is `NilObjectID`. -/
def ObjectIDFromHex (s : String) : Except GoError ObjectID :=
  if (goBytes s).length ≠ 24 then .error .errInvalidHex
  else
    match hexDecode (goBytes s) with
    | .error e => .error e
    | .ok bs => .ok ⟨bs⟩

/-- The first result of `docID, err := primitive.ObjectIDFromHex(orderID)` when
`err` is not looked at: the parsed identifier, or `NilObjectID`. -/
def parsedOrNil (s : String) : ObjectID :=
  match ObjectIDFromHex s with
  | .ok id => id
  | .error _ => NilObjectID

/-! ## Documents and the collection -/

/-- A BSON value as the handlers handle them. -/
inductive Value where
  | null
  | str (s : String)
  | num (n : Int)
  | oid (id : ObjectID)
deriving DecidableEq, Repr

/-- A document, `bson.M`: keys with their values. -/
abbrev Doc := List (String × Value)

/-- The `orders` collection: its documents in storage order. -/
abbrev Store := List Doc

/-- The `_id` of a document. -/
def docId (d : Doc) : Option Value := d.lookup "_id"

/-- An equality filter such as `bson.M{"_id": docID}`: a document matches when
it has every key of the filter with the filter's value; `bson.M{}` matches
every document. -/
def matchesFilter (filter : Doc) (d : Doc) : Bool :=
  filter.all (fun kv => decide (d.lookup kv.1 = some kv.2))

/-- What the server guarantees of a collection: every document has an `_id`
and no two documents share one. -/
def Store.WF (db : Store) : Prop :=
  (∀ d ∈ db, (docId d).isSome = true) ∧ (db.map docId).Nodup

instance (db : Store) : Decidable (Store.WF db) := by
  unfold Store.WF; infer_instance

/-- A store operation as the handlers issue it. -/
inductive StoreOp where
  | insertOne (doc : Doc)
  | find (filter : Doc)
  | findOne (filter : Doc)
  | updateOne (filter : Doc) (set : Doc)
  | replaceOne (filter : Doc) (replacement : Doc)
  | deleteOne (filter : Doc)
deriving DecidableEq, Repr

/-- Replaces the first document that satisfies `p` by its image under `f`. -/
def modifyFirst (p : Doc → Bool) (f : Doc → Doc) : Store → Store
  | [] => []
  | d :: ds => if p d then f d :: ds else d :: modifyFirst p f ds

/-- The count a write reports: 1 when a document matched and the write changed
it, 0 otherwise. -/
def modifiedCount (p : Doc → Bool) (f : Doc → Doc) (db : Store) : Nat :=
  match db.find? p with
  | none => 0
  | some d => if f d = d then 0 else 1

/-- The operator `$set` on one field: the value of an existing key is replaced
in place, a new key is added at the end. -/
def setField (k : String) (v : Value) : Doc → Doc
  | [] => [(k, v)]
  | kv :: rest => if kv.1 = k then (k, v) :: rest else kv :: setField k v rest

/-- The document a replacement leaves: the replacement, under the `_id` of the
document it replaces when the replacement names none. -/
def replacementFor (replacement : Doc) (d : Doc) : Doc :=
  match replacement.lookup "_id", docId d with
  | none, some id => ("_id", id) :: replacement
  | _, _ => replacement

/-- The call `InsertOne`: a driver failure or a duplicate `_id` is an error and
leaves the collection as it was; otherwise the document is stored and its
`_id` is returned. -/
def insertOne (fault : Option GoError) (db : Store) (doc : Doc) :
    Except GoError (Store × Value) :=
  match fault with
  | some e => .error e
  | none =>
    match docId doc with
    | none => .error (.writeError "document has no _id")
    | some id =>
      if db.any (fun d => decide (docId d = some id)) then
        .error (.writeError "E11000 duplicate key error")
      else .ok (db ++ [doc], id)

/-- The call `Find`: the documents that match the filter, in storage order. -/
def find (fault : Option GoError) (db : Store) (filter : Doc) :
    Except GoError (List Doc) :=
  match fault with
  | some e => .error e
  | none => .ok (db.filter (matchesFilter filter))

/-- The call `FindOne(...).Decode`: the first document that matches, and
`mongo.ErrNoDocuments` when there is none. -/
def findOne (fault : Option GoError) (db : Store) (filter : Doc) :
    Except GoError Doc :=
  match fault with
  | some e => .error e
  | none =>
    match db.find? (matchesFilter filter) with
    | none => .error .errNoDocuments
    | some d => .ok d

/-- The call `UpdateOne` with a `$set` of the listed fields, returning the
collection and `ModifiedCount`. -/
def updateOne (fault : Option GoError) (db : Store) (filter : Doc) (set : Doc) :
    Except GoError (Store × Nat) :=
  match fault with
  | some e => .error e
  | none =>
    let f : Doc → Doc := fun d => set.foldl (fun acc kv => setField kv.1 kv.2 acc) d
    .ok (modifyFirst (matchesFilter filter) f db,
         modifiedCount (matchesFilter filter) f db)

/-- The call `ReplaceOne`, returning the collection and `ModifiedCount`. A
replacement that names an `_id` other than the one of the matched document is
refused by the server. -/
def replaceOne (fault : Option GoError) (db : Store) (filter : Doc)
    (replacement : Doc) : Except GoError (Store × Nat) :=
  match fault with
  | some e => .error e
  | none =>
    match db.find? (matchesFilter filter) with
    | none => .ok (db, 0)
    | some d =>
      match replacement.lookup "_id" with
      | some id =>
        if docId d = some id then
          .ok (modifyFirst (matchesFilter filter) (replacementFor replacement) db,
               modifiedCount (matchesFilter filter) (replacementFor replacement) db)
        else .error (.writeError "the (immutable) field _id was found to have been altered")
      | none =>
        .ok (modifyFirst (matchesFilter filter) (replacementFor replacement) db,
             modifiedCount (matchesFilter filter) (replacementFor replacement) db)

/-- The call `DeleteOne`: the first document that matches is removed, returning
the collection and `DeletedCount`. -/
def deleteOne (fault : Option GoError) (db : Store) (filter : Doc) :
    Except GoError (Store × Nat) :=
  match fault with
  | some e => .error e
  | none =>
    .ok (db.eraseP (matchesFilter filter),
         if db.any (matchesFilter filter) then 1 else 0)

/-- The call `cursor.All(ctx, &orders)` on the declared `var orders []bson.M`
(a nil slice, here `none`): the driver appends the documents of the cursor and
stores `slice[0:n]`, so a cursor without documents leaves the nil slice nil. -/
def cursorAll (fault : Option GoError) (docs : List Doc) (orders : Option (List Doc)) :
    Except GoError (Option (List Doc)) :=
  match fault with
  | some e => .error e
  | none =>
    match docs, orders with
    | [], none => .ok none
    | ds, _ => .ok (some ds)

/-! ## The order record and the environment of a handler -/

/-- Modelled from the spec: the struct `models.Order`, whose declaration is in
a package outside the source files. The spec gives it an identifier and the
four fields `dish`, `price`, `server` and `table`; the fields are kept as BSON
values, since the handlers only pass them on. -/
structure Order where
  ID : ObjectID
  Dish : Value
  Price : Value
  Server : Value
  Table : Value
deriving DecidableEq, Repr

/-- Modelled from the spec: the document the driver stores for an `Order`, the
identifier under `_id` and the four fields under their names. -/
def Order.toDoc (o : Order) : Doc :=
  [("_id", .oid o.ID), ("dish", o.Dish), ("price", o.Price),
   ("server", o.Server), ("table", o.Table)]

/-- What a handler takes from outside the source files. -/
structure Env where
  /-- The value of `var order models.Order` before anything is bound to it. -/
  zeroOrder : Order
  /-- The call `c.BindJSON(&order)` on a request body: the populated order, or
  the decode error. -/
  bindJSON : String → Except GoError Order
  /-- The call `validate.Struct(order)`: `none` is the nil error. -/
  validateStruct : Order → Option GoError
  /-- The result of `primitive.NewObjectID()`. -/
  newObjectID : ObjectID
  /-- A failure of the store call itself (connection, timeout), if any. -/
  fault : Option GoError
  /-- A failure of `cursor.All`, if any. -/
  cursorFault : Option GoError

/-- The parts of a request the handlers read: the path parameters `id` and
`waiter`, and the body. -/
structure Request where
  id : String
  waiter : String
  body : String
deriving DecidableEq, Repr

/-- The second argument of `c.JSON`. -/
inductive Payload where
  /-- The object `gin.H{"error": e.Error()}`. -/
  | error (e : GoError)
  /-- The object `gin.H{"error": msg}` for a literal message. -/
  | errorText (msg : String)
  /-- The value `*mongo.InsertOneResult` with its `InsertedID`. -/
  | inserted (id : Value)
  /-- A slice `[]bson.M`; `none` is the nil slice, which renders as `null`. -/
  | docs (ds : Option (List Doc))
  /-- A single document. -/
  | doc (d : Doc)
  /-- The number `ModifiedCount` or `DeletedCount`. -/
  | count (n : Nat)
deriving DecidableEq, Repr

/-- How a handler ends: with a call of `c.JSON(status, body)`, or in a runtime
panic (a method call on a nil `error`). -/
inductive Outcome where
  | json (status : Nat) (body : Payload)
  | panic
deriving DecidableEq, Repr

/-- One run of a handler. -/
structure Result where
  outcome : Outcome
  /-- The collection after the run. -/
  store : Store
  /-- The store operations issued, in order. -/
  ops : List StoreOp
  /-- The seconds of the `context.WithTimeout` the handler created. -/
  timeout : Nat
  /-- Whether `cancel` was called before the handler returned: whether the
  run reached the `defer cancel()` statement. -/
  cancelled : Bool
deriving DecidableEq, Repr

/-- The statuses `http.StatusOK`, `http.StatusBadRequest` and
`http.StatusInternalServerError`. -/
def StatusOK : Nat := 200
def StatusBadRequest : Nat := 400
def StatusInternalServerError : Nat := 500

/-! ## The handlers -/

/-- The handler `AddOrder`. -/
def AddOrder (env : Env) (req : Request) (db : Store) : Result :=
  let order := env.zeroOrder
  let validationErr := env.validateStruct order
  match env.bindJSON req.body with
  | .error _ =>
    match validationErr with
    | none => ⟨.panic, db, [], 100, false⟩
    | some ve => ⟨.json StatusBadRequest (.error ve), db, [], 100, false⟩
  | .ok order =>
    let order := { order with ID := env.newObjectID }
    match insertOne env.fault db order.toDoc with
    | .error _ =>
      ⟨.json StatusInternalServerError (.errorText "order item was not created"), db,
        [.insertOne order.toDoc], 100, false⟩
    | .ok (db1, id) =>
      ⟨.json StatusOK (.inserted id), db1, [.insertOne order.toDoc], 100, true⟩

/-- The handler `GetOrders`. -/
def GetOrders (env : Env) (_req : Request) (db : Store) : Result :=
  let orders : Option (List Doc) := none
  match find env.fault db [] with
  | .error err =>
    ⟨.json StatusInternalServerError (.error err), db, [.find []], 100, false⟩
  | .ok cursor =>
    match cursorAll env.cursorFault cursor orders with
    | .error err =>
      ⟨.json StatusInternalServerError (.error err), db, [.find []], 100, false⟩
    | .ok orders =>
      ⟨.json StatusOK (.docs orders), db, [.find []], 100, true⟩

/-- The handler `GetOrdersByWaiter`. -/
def GetOrdersByWaiter (env : Env) (req : Request) (db : Store) : Result :=
  let waiter := req.waiter
  let orders : Option (List Doc) := none
  match find env.fault db [("server", .str waiter)] with
  | .error err =>
    ⟨.json StatusInternalServerError (.error err), db,
      [.find [("server", .str waiter)]], 100, false⟩
  | .ok cursor =>
    match cursorAll env.cursorFault cursor orders with
    | .error err =>
      ⟨.json StatusInternalServerError (.error err), db,
        [.find [("server", .str waiter)]], 100, false⟩
    | .ok orders =>
      ⟨.json StatusOK (.docs orders), db, [.find [("server", .str waiter)]], 100, true⟩

/-- The handler `GetOrderById`. -/
def GetOrderById (env : Env) (req : Request) (db : Store) : Result :=
  let orderID := req.id
  match ObjectIDFromHex orderID with
  | .error err => ⟨.json StatusInternalServerError (.error err), db, [], 100, false⟩
  | .ok docID =>
    match findOne env.fault db [("_id", .oid docID)] with
    | .error err =>
      ⟨.json StatusInternalServerError (.error err), db,
        [.findOne [("_id", .oid docID)]], 100, false⟩
    | .ok order =>
      ⟨.json StatusOK (.doc order), db, [.findOne [("_id", .oid docID)]], 100, true⟩

/-- The local struct `Waiter` of `UpdateWaiter`: one field, `Server *string`,
`none` being the nil pointer. -/
structure Waiter where
  Server : Option String
deriving DecidableEq, Repr

/-- The BSON value of a `*string`: null for the nil pointer. -/
def stringPtrValue : Option String → Value
  | none => .null
  | some s => .str s

/-- The handler `UpdateWaiter`. The variable `waiter` is declared and used as
it is; the request body is not read. -/
def UpdateWaiter (env : Env) (req : Request) (db : Store) : Result :=
  let orderID := req.id
  match ObjectIDFromHex orderID with
  | .error err => ⟨.json StatusInternalServerError (.error err), db, [], 100, false⟩
  | .ok docID =>
    let waiter : Waiter := ⟨none⟩
    let op := StoreOp.updateOne [("_id", .oid docID)] [("server", stringPtrValue waiter.Server)]
    match updateOne env.fault db [("_id", .oid docID)]
        [("server", stringPtrValue waiter.Server)] with
    | .error err => ⟨.json StatusInternalServerError (.error err), db, [op], 100, false⟩
    | .ok (db1, n) => ⟨.json StatusOK (.count n), db1, [op], 100, true⟩

/-- The replacement document `UpdateOrder` builds from the bound order, a
`bson.M` of four keys, listed here in the order of the source. -/
def replacementOf (order : Order) : Doc :=
  [("dish", order.Dish), ("price", order.Price), ("server", order.Server),
   ("table", order.Table)]

/-- The handler `UpdateOrder`. The error of `ObjectIDFromHex` is not looked
at. -/
def UpdateOrder (env : Env) (req : Request) (db : Store) : Result :=
  let orderID := req.id
  let docID := parsedOrNil orderID
  match env.bindJSON req.body with
  | .error err => ⟨.json StatusBadRequest (.error err), db, [], 100, false⟩
  | .ok order =>
    match env.validateStruct order with
    | some validationErr =>
      ⟨.json StatusBadRequest (.error validationErr), db, [], 100, false⟩
    | none =>
      let op := StoreOp.replaceOne [("_id", .oid docID)] (replacementOf order)
      match replaceOne env.fault db [("_id", .oid docID)] (replacementOf order) with
      | .error err => ⟨.json StatusInternalServerError (.error err), db, [op], 100, false⟩
      | .ok (db1, n) => ⟨.json StatusOK (.count n), db1, [op], 100, true⟩

/-- The handler `DeleteOrder`. The error of `ObjectIDFromHex` is not looked
at. -/
def DeleteOrder (env : Env) (req : Request) (db : Store) : Result :=
  let orderID := req.id
  let docID := parsedOrNil orderID
  let op := StoreOp.deleteOne [("_id", .oid docID)]
  match deleteOne env.fault db [("_id", .oid docID)] with
  | .error err => ⟨.json StatusInternalServerError (.error err), db, [op], 100, false⟩
  | .ok (db1, n) => ⟨.json StatusOK (.count n), db1, [op], 100, true⟩

/-! ## Concrete environments and collections -/

/-- The zero value of an order whose fields are all optional. -/
def sampleZero : Order := ⟨NilObjectID, .null, .null, .null, .null⟩

/-- A complete order. -/
def soup : Order := ⟨NilObjectID, .str "soup", .num 5, .str "ann", .str "t1"⟩

/-- The body of a request that carries `soup`. -/
def soupBody : String :=
  "\x7b\"dish\":\"soup\",\"price\":5,\"server\":\"ann\",\"table\":\"t1\"\x7d"

/-- A binder that knows the empty object and `soupBody`, and reports every
other body as malformed. -/
def sampleBind (body : String) : Except GoError Order :=
  if body = "\x7b\x7d" then .ok sampleZero
  else if body = soupBody then .ok soup
  else .error (.other "unexpected EOF")

/-- A validator with the rule the spec names: the price is required. -/
def requirePrice (o : Order) : Option GoError :=
  if o.Price = .null then
    some (.other "Key: 'Order.Price' Error:Field validation for 'Price' failed on the 'required' tag")
  else none

/-- A validator for a struct without validation tags: it accepts everything. -/
def noRules (_o : Order) : Option GoError := none

/-- The identifier written `507f1f77bcf86cd799439011`. -/
def sampleId : ObjectID := ⟨[80, 127, 31, 119, 188, 248, 108, 215, 153, 67, 144, 17]⟩

/-- The identifier written `507f1f77bcf86cd799439012`. -/
def freshId : ObjectID := ⟨[80, 127, 31, 119, 188, 248, 108, 215, 153, 67, 144, 18]⟩

/-- An environment whose validator requires a price and whose store answers. -/
def strictEnv : Env := ⟨sampleZero, sampleBind, requirePrice, freshId, none, none⟩

/-- An environment whose validator has no rule and whose store answers. -/
def laxEnv : Env := ⟨sampleZero, sampleBind, noRules, freshId, none, none⟩

/-- An environment whose store call fails. -/
def downEnv : Env :=
  ⟨sampleZero, sampleBind, requirePrice, freshId, some (.other "context deadline exceeded"), none⟩

/-- The stored document of `soup` under `sampleId`. -/
def soupDoc : Doc :=
  [("_id", .oid sampleId), ("dish", .str "soup"), ("price", .num 5),
   ("server", .str "ann"), ("table", .str "t1")]

/-- A stored document whose identifier is the zero value. -/
def nilDoc : Doc :=
  [("_id", .oid NilObjectID), ("dish", .str "tea"), ("price", .num 2),
   ("server", .str "bob"), ("table", .str "t2")]

/-! ## Facts about the collection -/

theorem matchesFilter_id (v : Value) (d : Doc) :
    matchesFilter [("_id", v)] d = true ↔ docId d = some v := by
  simp [matchesFilter, docId]

theorem matchesFilter_server (w : String) (d : Doc) :
    matchesFilter [("server", .str w)] d = true ↔ d.lookup "server" = some (.str w) := by
  simp [matchesFilter]

theorem find?_eq_none_of_no_id {p : Doc → Bool} {v : Value}
    (hp : ∀ d, p d = true ↔ docId d = some v) (db : Store)
    (h : ∀ d ∈ db, docId d ≠ some v) : db.find? p = none := by
  rw [List.find?_eq_none]
  intro d hd hpd
  exact h d hd ((hp d).1 hpd)

theorem find?_eq_some_of_id {p : Doc → Bool} {v : Value}
    (hp : ∀ d, p d = true ↔ docId d = some v) :
    ∀ (db : Store) (d : Doc), (db.map docId).Nodup → d ∈ db → docId d = some v →
      db.find? p = some d := by
  intro db
  induction db with
  | nil => intro d _ hd; cases hd
  | cons a as ih =>
    intro d hnd hd hv
    rw [List.map_cons, List.nodup_cons] at hnd
    rcases List.mem_cons.1 hd with rfl | hmem
    · simp [List.find?, (hp d).2 hv]
    · have hne : p a = false := by
        cases hpa : p a with
        | false => rfl
        | true =>
          exfalso
          apply hnd.1
          rw [(hp a).1 hpa, ← hv]
          exact List.mem_map_of_mem docId hmem
      simp only [List.find?, hne]
      exact ih d hnd.2 hmem hv

theorem eraseP_eq_filter_of_nodup {p : Doc → Bool} {v : Value}
    (hp : ∀ d, p d = true ↔ docId d = some v) :
    ∀ db : Store, (db.map docId).Nodup →
      db.eraseP p = db.filter (fun d => decide (docId d ≠ some v)) := by
  intro db
  induction db with
  | nil => intro _; rfl
  | cons a as ih =>
    intro hnd
    rw [List.map_cons, List.nodup_cons] at hnd
    cases hpa : p a with
    | true =>
      have hav : docId a = some v := (hp a).1 hpa
      have hrest : ∀ d ∈ as, docId d ≠ some v := by
        intro d hd hdv
        apply hnd.1
        rw [hav, ← hdv]
        exact List.mem_map_of_mem docId hd
      rw [List.eraseP_cons_of_pos hpa, List.filter_cons_of_neg (by simp [hav])]
      symm
      rw [List.filter_eq_self]
      intro d hd
      simpa using hrest d hd
    | false =>
      have hav : docId a ≠ some v := by
        intro h
        rw [(hp a).2 h] at hpa
        cases hpa
      rw [List.eraseP_cons_of_neg (by simp [hpa]), List.filter_cons_of_pos (by simpa using hav),
        ih hnd.2]

theorem modifyFirst_eq_map_of_nodup {p : Doc → Bool} {v : Value}
    (hp : ∀ d, p d = true ↔ docId d = some v) (f : Doc → Doc) :
    ∀ db : Store, (db.map docId).Nodup →
      modifyFirst p f db = db.map (fun d => if docId d = some v then f d else d) := by
  intro db
  induction db with
  | nil => intro _; rfl
  | cons a as ih =>
    intro hnd
    rw [List.map_cons, List.nodup_cons] at hnd
    cases hpa : p a with
    | true =>
      have hav : docId a = some v := (hp a).1 hpa
      have hrest : ∀ d ∈ as, docId d ≠ some v := by
        intro d hd hdv
        apply hnd.1
        rw [hav, ← hdv]
        exact List.mem_map_of_mem docId hd
      have hmap : as.map (fun d => if docId d = some v then f d else d) = as := by
        conv_rhs => rw [← List.map_id as]
        apply List.map_congr_left
        intro d hd
        simp [hrest d hd]
      simp [modifyFirst, hpa, hav, hmap]
    | false =>
      have hav : docId a ≠ some v := by
        intro h
        rw [(hp a).2 h] at hpa
        cases hpa
      simp [modifyFirst, hpa, hav, ih hnd.2]

theorem modifiedCount_le_one (p : Doc → Bool) (f : Doc → Doc) (db : Store) :
    modifiedCount p f db ≤ 1 := by
  unfold modifiedCount
  split
  · exact Nat.zero_le 1
  · split <;> simp

theorem modifiedCount_eq_zero_iff (p : Doc → Bool) (f : Doc → Doc) :
    ∀ db : Store, modifiedCount p f db = 0 ↔ modifyFirst p f db = db := by
  intro db
  induction db with
  | nil => simp [modifiedCount, modifyFirst]
  | cons a as ih =>
    cases hpa : p a with
    | true =>
      by_cases hfa : f a = a <;> simp [modifiedCount, modifyFirst, List.find?, hpa, hfa]
    | false =>
      have h : modifiedCount p f (a :: as) = modifiedCount p f as := by
        simp [modifiedCount, List.find?, hpa]
      rw [h, ih]
      simp [modifyFirst, hpa]

theorem modifyFirst_of_find?_none (p : Doc → Bool) (f : Doc → Doc) :
    ∀ db : Store, db.find? p = none → modifyFirst p f db = db := by
  intro db
  induction db with
  | nil => intro _; rfl
  | cons a as ih =>
    intro h
    cases hpa : p a with
    | true => simp [List.find?, hpa] at h
    | false =>
      simp only [List.find?, hpa] at h
      simp [modifyFirst, hpa, ih h]

theorem replaceOne_without_id (db : Store) (filter : Doc) (replacement : Doc)
    (h : replacement.lookup "_id" = none) :
    replaceOne none db filter replacement =
      .ok (modifyFirst (matchesFilter filter) (replacementFor replacement) db,
           modifiedCount (matchesFilter filter) (replacementFor replacement) db) := by
  unfold replaceOne
  cases hfind : db.find? (matchesFilter filter) with
  | none =>
    simp only [modifyFirst_of_find?_none _ _ db hfind]
    simp [modifiedCount, hfind]
  | some d => simp only [h]

theorem replacementOf_lookup_id (o : Order) : (replacementOf o).lookup "_id" = none := by
  simp [replacementOf, List.lookup]

theorem parsedOrNil_of_ok {s : String} {id : ObjectID} (h : ObjectIDFromHex s = .ok id) :
    parsedOrNil s = id := by
  simp [parsedOrNil, h]

theorem parsedOrNil_of_error {s : String} {e : GoError} (h : ObjectIDFromHex s = .error e) :
    parsedOrNil s = NilObjectID := by
  simp [parsedOrNil, h]

theorem insertOne_fresh (db : Store) (doc : Doc) (id : Value)
    (hid : docId doc = some id) (hfresh : ∀ d ∈ db, docId d ≠ some id) :
    insertOne none db doc = .ok (db ++ [doc], id) := by
  have hany : db.any (fun d => decide (docId d = some id)) = false := by
    rw [List.any_eq_false]
    intro d hd
    simpa using hfresh d hd
  simp only [insertOne, hid, hany]
  rfl

theorem GetOrderById_of_absent_id (env : Env) (req : Request) (db : Store) (id : ObjectID)
    (hid : ObjectIDFromHex req.id = .ok id) (hno : ∀ d ∈ db, docId d ≠ some (.oid id)) :
    (GetOrderById env req db).outcome
      = .json 500 (.error (env.fault.getD .errNoDocuments)) := by
  have hfind := find?_eq_none_of_no_id (matchesFilter_id (.oid id)) db hno
  cases hf : env.fault with
  | none => simp [GetOrderById, hid, findOne, hf, hfind, StatusInternalServerError]
  | some e => simp [GetOrderById, hid, findOne, hf, StatusInternalServerError]

/-! ## The handlers: what they do -/

/-- C1: `AddOrder` does not hold back an order that fails validation. Whenever
the body binds to an order `o`, the store answers and the fresh identifier is
unused, the order is inserted and the status is 200, even though
`validate.Struct` rejects `o`: the validation result is only read on the
branch where binding failed. -/
theorem AddOrder_inserts_rejected_order (env : Env) (req : Request) (db : Store)
    (o : Order) (e : GoError)
    (hb : env.bindJSON req.body = .ok o)
    (_hv : env.validateStruct o = some e)
    (hf : env.fault = none)
    (hfresh : ∀ d ∈ db, docId d ≠ some (.oid env.newObjectID)) :
    (AddOrder env req db).outcome = .json 200 (.inserted (.oid env.newObjectID)) ∧
    (AddOrder env req db).store = db ++ [Order.toDoc { o with ID := env.newObjectID }] ∧
    (AddOrder env req db).ops = [.insertOne (Order.toDoc { o with ID := env.newObjectID })] := by
  have hins := insertOne_fresh db (Order.toDoc { o with ID := env.newObjectID })
    (.oid env.newObjectID) rfl hfresh
  simp [AddOrder, hb, hf, hins, StatusOK]

/-- Witness of C1: the empty object binds to an order without price, which the
validator rejects, and the order is stored all the same. -/
theorem AddOrder_inserts_rejected_order_witness :
    (AddOrder strictEnv ⟨"", "", "\x7b\x7d"⟩ []).outcome
        = .json 200 (.inserted (.oid strictEnv.newObjectID)) ∧
    (AddOrder strictEnv ⟨"", "", "\x7b\x7d"⟩ []).store
        = [] ++ [Order.toDoc { sampleZero with ID := strictEnv.newObjectID }] ∧
    (AddOrder strictEnv ⟨"", "", "\x7b\x7d"⟩ []).ops
        = [.insertOne (Order.toDoc { sampleZero with ID := strictEnv.newObjectID })] :=
  AddOrder_inserts_rejected_order strictEnv ⟨"", "", "\x7b\x7d"⟩ [] sampleZero
    (.other "Key: 'Order.Price' Error:Field validation for 'Price' failed on the 'required' tag")
    rfl rfl rfl (by intro d hd; cases hd)

/-- C2: on a malformed body `AddOrder` reads the text of the validation result
of the zero-value order, not of the decode error. When that validation result
is nil the handler panics instead of answering 400; when it is an error, the
answer is 400 with the validation text. Nothing is inserted either way. -/
theorem AddOrder_malformed_body (env : Env) (req : Request) (db : Store) (e : GoError)
    (hb : env.bindJSON req.body = .error e) :
    (env.validateStruct env.zeroOrder = none →
      (AddOrder env req db).outcome = .panic) ∧
    (∀ ve, env.validateStruct env.zeroOrder = some ve →
      (AddOrder env req db).outcome = .json 400 (.error ve)) ∧
    (AddOrder env req db).store = db ∧ (AddOrder env req db).ops = [] := by
  refine ⟨?_, ?_, ?_, ?_⟩
  · intro hz
    simp [AddOrder, hb, hz]
  · intro ve hz
    simp [AddOrder, hb, hz, StatusBadRequest]
  · simp only [AddOrder, hb]
    cases env.validateStruct env.zeroOrder <;> rfl
  · simp only [AddOrder, hb]
    cases env.validateStruct env.zeroOrder <;> rfl

/-- Witness of C2: a truncated body under a validator without rules. -/
theorem AddOrder_malformed_body_witness :
    (AddOrder laxEnv ⟨"", "", "\x7b"⟩ [soupDoc]).outcome = .panic :=
  (AddOrder_malformed_body laxEnv ⟨"", "", "\x7b"⟩ [soupDoc] (.other "unexpected EOF") rfl).1 rfl

/-- C3 does not hold as stated: an id that parses and that a stored document
carries does not always give 200 with that document. When the store call
itself fails, the answer is 500 with the error of the driver, an outcome
outside the three of the claim. -/
theorem GetOrderById_store_failure_is_500 :
    ObjectIDFromHex "507f1f77bcf86cd799439011" = .ok sampleId ∧
    soupDoc ∈ [nilDoc, soupDoc] ∧ docId soupDoc = some (.oid sampleId) ∧
    Store.WF [nilDoc, soupDoc] ∧
    (GetOrderById downEnv ⟨"507f1f77bcf86cd799439011", "", ""⟩ [nilDoc, soupDoc]).outcome
      = .json 500 (.error (.other "context deadline exceeded")) ∧
    (GetOrderById downEnv ⟨"507f1f77bcf86cd799439011", "", ""⟩ [nilDoc, soupDoc]).outcome
      ≠ .json 200 (.doc soupDoc) := by
  refine ⟨rfl, by decide, rfl, by decide, by decide, by decide⟩

/-- C3, amended: `GetOrderById` never changes the collection and maps every
input to exactly one of four outcomes. An id that does not parse: 500 with the
parse error, no store operation. An id that parses: one `FindOne` with the
filter `_id` = the parsed id, and then, if the store call fails, 500 with the
error of the driver; if the store answers and no document carries the id, 500
with the error of the store, `mongo.ErrNoDocuments`; if the store answers and
a document carries the id, 200 with a document of that id, which over unique
ids is exactly that document. -/
theorem GetOrderById_outcomes (env : Env) (req : Request) (db : Store) :
    (GetOrderById env req db).store = db ∧
    (∀ e, ObjectIDFromHex req.id = .error e →
      (GetOrderById env req db).outcome = .json 500 (.error e) ∧
      (GetOrderById env req db).ops = []) ∧
    (∀ id, ObjectIDFromHex req.id = .ok id →
      (GetOrderById env req db).ops = [.findOne [("_id", .oid id)]] ∧
      (∀ e, env.fault = some e →
        (GetOrderById env req db).outcome = .json 500 (.error e)) ∧
      (env.fault = none → (∀ d ∈ db, docId d ≠ some (.oid id)) →
        (GetOrderById env req db).outcome = .json 500 (.error .errNoDocuments)) ∧
      (env.fault = none → (∃ d ∈ db, docId d = some (.oid id)) →
        ∃ d ∈ db, docId d = some (.oid id) ∧
          (GetOrderById env req db).outcome = .json 200 (.doc d)) ∧
      (env.fault = none → db.WF → ∀ d ∈ db, docId d = some (.oid id) →
        (GetOrderById env req db).outcome = .json 200 (.doc d))) := by
  refine ⟨?_, ?_, ?_⟩
  · cases h : ObjectIDFromHex req.id with
    | error e => simp [GetOrderById, h]
    | ok id =>
      cases h2 : findOne env.fault db [("_id", .oid id)] <;> simp [GetOrderById, h, h2]
  · intro e he
    simp [GetOrderById, he, StatusInternalServerError]
  · intro id hid
    refine ⟨?_, ?_, ?_, ?_, ?_⟩
    · cases h2 : findOne env.fault db [("_id", .oid id)] <;> simp [GetOrderById, hid, h2]
    · intro e hf
      simp [GetOrderById, hid, findOne, hf, StatusInternalServerError]
    · intro hf hno
      have h := GetOrderById_of_absent_id env req db id hid hno
      rw [hf] at h
      exact h
    · rintro hf ⟨d0, hd0, hdid0⟩
      cases hfind : db.find? (matchesFilter [("_id", .oid id)]) with
      | none =>
        exfalso
        rw [List.find?_eq_none] at hfind
        exact hfind d0 hd0 ((matchesFilter_id _ d0).2 hdid0)
      | some d =>
        refine ⟨d, List.mem_of_find?_eq_some hfind,
          (matchesFilter_id _ d).1 (List.find?_some hfind), ?_⟩
        simp [GetOrderById, hid, findOne, hf, hfind, StatusOK]
    · intro hf hwf d hd hdid
      have hfind := find?_eq_some_of_id (matchesFilter_id (.oid id)) db d hwf.2 hd hdid
      simp [GetOrderById, hid, findOne, hf, hfind, StatusOK]

/-- Witness of C3, amended: the stored `soupDoc` is returned for its own
identifier when the store answers. -/
theorem GetOrderById_outcomes_witness :
    (GetOrderById laxEnv ⟨"507f1f77bcf86cd799439011", "", ""⟩ [nilDoc, soupDoc]).outcome
      = .json 200 (.doc soupDoc) :=
  ((GetOrderById_outcomes laxEnv ⟨"507f1f77bcf86cd799439011", "", ""⟩
    [nilDoc, soupDoc]).2.2 sampleId rfl).2.2.2.2 rfl (by decide) soupDoc (by decide) rfl

/-- C5: when the body of a replace request does not deserialize, or the
deserialized order fails validation, `UpdateOrder` answers 400 with the text
of that decode or validation error, issues no store operation and leaves the
collection as it was, whatever the path id. -/
theorem UpdateOrder_rejects_bad_body (env : Env) (req : Request) (db : Store) (e : GoError)
    (h : env.bindJSON req.body = .error e ∨
         ∃ o, env.bindJSON req.body = .ok o ∧ env.validateStruct o = some e) :
    (UpdateOrder env req db).outcome = .json 400 (.error e) ∧
    (UpdateOrder env req db).ops = [] ∧
    (UpdateOrder env req db).store = db := by
  rcases h with hb | ⟨o, hb, hv⟩
  · simp [UpdateOrder, hb, StatusBadRequest]
  · simp [UpdateOrder, hb, hv, StatusBadRequest]

/-- Witness of C5: an order without price, sent to an id that does not parse. -/
theorem UpdateOrder_rejects_bad_body_witness :
    (UpdateOrder strictEnv ⟨"xyz", "", "\x7b\x7d"⟩ [soupDoc]).outcome
      = .json 400 (.error (.other
          "Key: 'Order.Price' Error:Field validation for 'Price' failed on the 'required' tag")) ∧
    (UpdateOrder strictEnv ⟨"xyz", "", "\x7b\x7d"⟩ [soupDoc]).ops = [] ∧
    (UpdateOrder strictEnv ⟨"xyz", "", "\x7b\x7d"⟩ [soupDoc]).store = [soupDoc] :=
  UpdateOrder_rejects_bad_body strictEnv ⟨"xyz", "", "\x7b\x7d"⟩ [soupDoc] _
    (Or.inr ⟨sampleZero, rfl, rfl⟩)

/-- C4: for an id that parses and a body that binds to an order passing
validation, `UpdateOrder` issues exactly one store operation, a replace with
the filter `_id` = the parsed id and a replacement of exactly the four keys
`dish`, `price`, `server`, `table` with the values of the body. When the store
answers, the document with that id becomes those four fields under its own
id, every other document stays as it was, and the answer is 200 with the
modified count (0 or 1, and 0 exactly when nothing changed). -/
theorem UpdateOrder_replaces_fields (env : Env) (req : Request) (db : Store)
    (id : ObjectID) (o : Order)
    (hid : ObjectIDFromHex req.id = .ok id)
    (hb : env.bindJSON req.body = .ok o)
    (hv : env.validateStruct o = none) :
    (UpdateOrder env req db).ops
      = [.replaceOne [("_id", .oid id)]
          [("dish", o.Dish), ("price", o.Price), ("server", o.Server), ("table", o.Table)]] ∧
    (env.fault = none → db.WF →
      (UpdateOrder env req db).store
        = db.map (fun d => if docId d = some (.oid id) then
            [("_id", .oid id), ("dish", o.Dish), ("price", o.Price),
             ("server", o.Server), ("table", o.Table)] else d) ∧
      ∃ n, n ≤ 1 ∧ (UpdateOrder env req db).outcome = .json 200 (.count n) ∧
        (n = 0 ↔ (UpdateOrder env req db).store = db)) := by
  have hp := parsedOrNil_of_ok hid
  constructor
  · change _ = [.replaceOne [("_id", .oid id)] (replacementOf o)]
    cases hr : replaceOne env.fault db [("_id", .oid id)] (replacementOf o) <;>
      simp [UpdateOrder, hb, hv, hp, hr]
  · intro hf hwf
    have hr := replaceOne_without_id db [("_id", .oid id)] (replacementOf o)
      (replacementOf_lookup_id o)
    have hstore : (UpdateOrder env req db).store
        = modifyFirst (matchesFilter [("_id", .oid id)]) (replacementFor (replacementOf o)) db := by
      simp [UpdateOrder, hb, hv, hp, hf, hr]
    have hout : (UpdateOrder env req db).outcome
        = .json 200 (.count (modifiedCount (matchesFilter [("_id", .oid id)])
            (replacementFor (replacementOf o)) db)) := by
      simp [UpdateOrder, hb, hv, hp, hf, hr, StatusOK]
    refine ⟨?_, _, modifiedCount_le_one _ _ db, hout, ?_⟩
    · rw [hstore, modifyFirst_eq_map_of_nodup (matchesFilter_id (.oid id)) _ db hwf.2]
      apply List.map_congr_left
      intro d _
      by_cases hd : docId d = some (.oid id)
      · simp [hd, replacementFor, replacementOf, List.lookup]
      · simp [hd]
    · rw [hstore]
      exact modifiedCount_eq_zero_iff _ _ db

/-- Witness of C4: `soupBody` replaces the fields of `nilDoc` and leaves
`soupDoc` alone. -/
theorem UpdateOrder_replaces_fields_witness :
    (UpdateOrder laxEnv ⟨"000000000000000000000000", "", soupBody⟩ [soupDoc, nilDoc]).store
      = [soupDoc, [("_id", .oid NilObjectID), ("dish", .str "soup"), ("price", .num 5),
          ("server", .str "ann"), ("table", .str "t1")]] :=
  ((UpdateOrder_replaces_fields laxEnv ⟨"000000000000000000000000", "", soupBody⟩
    [soupDoc, nilDoc] NilObjectID soup rfl rfl rfl).2 rfl (by decide)).1

/-- C6: for an id that parses and a collection with unique ids, `DeleteOrder`
answers 500 when the store call fails, leaving the collection as it was. When
the store answers: if a document carries the id, that document and no other is
removed, the answer is 200 with count 1, and `GetOrderById` for the same id
then answers with an error; if no document carries the id, the collection
stays as it was and the answer is 200 with count 0. A count, when there is
one, is 0 or 1. -/
theorem DeleteOrder_removes_exactly_one (env : Env) (req : Request) (db : Store)
    (id : ObjectID) (hid : ObjectIDFromHex req.id = .ok id) (hwf : db.WF) :
    (∀ e, env.fault = some e →
      (DeleteOrder env req db).outcome = .json 500 (.error e) ∧
      (DeleteOrder env req db).store = db) ∧
    (∀ status n, (DeleteOrder env req db).outcome = .json status (.count n) →
      n = 0 ∨ n = 1) ∧
    (env.fault = none →
      ((∃ d ∈ db, docId d = some (.oid id)) →
        (DeleteOrder env req db).outcome = .json 200 (.count 1) ∧
        (DeleteOrder env req db).store
          = db.filter (fun d => decide (docId d ≠ some (.oid id))) ∧
        (DeleteOrder env req db).store.length + 1 = db.length ∧
        ∀ env1, ∃ e, (GetOrderById env1 req (DeleteOrder env req db).store).outcome
          = .json 500 (.error e)) ∧
      ((∀ d ∈ db, docId d ≠ some (.oid id)) →
        (DeleteOrder env req db).outcome = .json 200 (.count 0) ∧
        (DeleteOrder env req db).store = db)) := by
  have hp := parsedOrNil_of_ok hid
  refine ⟨?_, ?_, ?_⟩
  · intro e hf
    simp [DeleteOrder, deleteOne, hf, StatusInternalServerError]
  · intro status n h
    cases hf : env.fault with
    | some e => simp [DeleteOrder, deleteOne, hf] at h
    | none =>
      simp only [DeleteOrder, deleteOne, hf, Outcome.json.injEq, Payload.count.injEq] at h
      by_cases hany : db.any (matchesFilter [("_id", .oid (parsedOrNil req.id))]) = true
      · rw [if_pos hany] at h
        exact Or.inr h.2.symm
      · rw [if_neg hany] at h
        exact Or.inl h.2.symm
  · intro hf
    have hstore : (DeleteOrder env req db).store
        = db.eraseP (matchesFilter [("_id", .oid id)]) := by
      simp [DeleteOrder, deleteOne, hf, hp]
    constructor
    · rintro ⟨d, hd, hdid⟩
      have hany : db.any (matchesFilter [("_id", .oid id)]) = true :=
        List.any_eq_true.2 ⟨d, hd, (matchesFilter_id _ d).2 hdid⟩
      have hfilter := eraseP_eq_filter_of_nodup (matchesFilter_id (.oid id)) db hwf.2
      refine ⟨?_, ?_, ?_, ?_⟩
      · simp [DeleteOrder, deleteOne, hf, hp, hany, StatusOK]
      · rw [hstore, hfilter]
      · rw [hstore, List.length_eraseP_of_mem hd ((matchesFilter_id _ d).2 hdid)]
        have : 0 < db.length := List.length_pos_of_mem hd
        omega
      · intro env1
        have hgone : ∀ d1 ∈ (DeleteOrder env req db).store, docId d1 ≠ some (.oid id) := by
          intro d1 hd1
          rw [hstore, hfilter, List.mem_filter] at hd1
          simpa using hd1.2
        exact ⟨_, GetOrderById_of_absent_id env1 req _ id hid hgone⟩
    · intro hno
      have hany : db.any (matchesFilter [("_id", .oid id)]) = false := by
        rw [List.any_eq_false]
        intro d hd hm
        exact hno d hd ((matchesFilter_id _ d).1 hm)
      constructor
      · simp [DeleteOrder, deleteOne, hf, hp, hany, StatusOK]
      · rw [hstore]
        apply List.eraseP_of_forall_not
        intro d hd hm
        exact hno d hd ((matchesFilter_id _ d).1 hm)

/-- Witness of C6: deleting `soupDoc` by its id removes it and nothing else. -/
theorem DeleteOrder_removes_exactly_one_witness :
    (DeleteOrder laxEnv ⟨"507f1f77bcf86cd799439011", "", ""⟩ [nilDoc, soupDoc]).outcome
        = .json 200 (.count 1) ∧
    (DeleteOrder laxEnv ⟨"507f1f77bcf86cd799439011", "", ""⟩ [nilDoc, soupDoc]).store
        = [nilDoc] :=
  have h := ((DeleteOrder_removes_exactly_one laxEnv ⟨"507f1f77bcf86cd799439011", "", ""⟩
    [nilDoc, soupDoc] sampleId rfl (by decide)).2.2 rfl).1 ⟨soupDoc, by decide, rfl⟩
  ⟨h.1, h.2.1⟩

/-- C7 does not hold as stated: for a waiter that no order names, the body of
the 200 answer is the nil slice the handler declared, which renders as `null`,
not an empty array. -/
theorem GetOrdersByWaiter_no_match_is_nil :
    laxEnv.fault = none ∧ laxEnv.cursorFault = none ∧
    (∀ d ∈ [soupDoc], d.lookup "server" ≠ some (.str "zed")) ∧
    (GetOrdersByWaiter laxEnv ⟨"", "zed", ""⟩ [soupDoc]).outcome = .json 200 (.docs none) ∧
    (GetOrdersByWaiter laxEnv ⟨"", "zed", ""⟩ [soupDoc]).outcome
      ≠ .json 200 (.docs (some [])) := by
  decide

/-- C7, amended: when the store call and `cursor.All` succeed,
`GetOrdersByWaiter` leaves the collection as it was and answers 200 with
exactly the stored documents whose `server` equals the waiter of the path, in
storage order; when no document matches, the body is the nil slice (`null`),
and only then. -/
theorem GetOrdersByWaiter_exact_matches (env : Env) (req : Request) (db : Store)
    (hf : env.fault = none) (hc : env.cursorFault = none) :
    (GetOrdersByWaiter env req db).store = db ∧
    ∃ body, (GetOrdersByWaiter env req db).outcome = .json 200 (.docs body) ∧
      body.getD [] = db.filter (fun d => decide (d.lookup "server" = some (.str req.waiter))) ∧
      (∀ d, d ∈ body.getD [] ↔ d ∈ db ∧ d.lookup "server" = some (.str req.waiter)) ∧
      (body = none ↔ ∀ d ∈ db, d.lookup "server" ≠ some (.str req.waiter)) := by
  have hfilter : db.filter (matchesFilter [("server", .str req.waiter)])
      = db.filter (fun d => decide (d.lookup "server" = some (.str req.waiter))) := by
    apply List.filter_congr
    intro d _
    simp [matchesFilter]
  cases hm : db.filter (fun d => decide (d.lookup "server" = some (.str req.waiter))) with
  | nil =>
    have hnone : ∀ d ∈ db, d.lookup "server" ≠ some (.str req.waiter) := by
      intro d hd
      have := List.filter_eq_nil_iff.1 hm d hd
      simpa using this
    refine ⟨?_, none, ?_, rfl, ?_, ?_⟩
    · simp [GetOrdersByWaiter, find, cursorAll, hf, hc, hfilter, hm]
    · simp [GetOrdersByWaiter, find, cursorAll, hf, hc, hfilter, hm, StatusOK]
    · intro d
      constructor
      · intro h
        simp at h
      · rintro ⟨hd, hs⟩
        exact absurd hs (hnone d hd)
    · exact ⟨fun _ => hnone, fun _ => rfl⟩
  | cons a as =>
    have hmem : a ∈ db ∧ a.lookup "server" = some (.str req.waiter) := by
      have : a ∈ db.filter (fun d => decide (d.lookup "server" = some (.str req.waiter))) := by
        rw [hm]; exact List.mem_cons_self a as
      simpa [List.mem_filter] using this
    refine ⟨?_, some (a :: as), ?_, rfl, ?_, ?_⟩
    · simp [GetOrdersByWaiter, find, cursorAll, hf, hc, hfilter, hm]
    · simp [GetOrdersByWaiter, find, cursorAll, hf, hc, hfilter, hm, StatusOK]
    · intro d
      rw [Option.getD_some, ← hm, List.mem_filter]
      simp
    · constructor
      · intro h; cases h
      · intro h
        exact absurd hmem.2 (h a hmem.1)

/-- Witness of C7, amended: the orders of waiter `ann`. -/
theorem GetOrdersByWaiter_exact_matches_witness :
    (GetOrdersByWaiter laxEnv ⟨"", "ann", ""⟩ [nilDoc, soupDoc]).store = [nilDoc, soupDoc] ∧
    ∃ body, (GetOrdersByWaiter laxEnv ⟨"", "ann", ""⟩ [nilDoc, soupDoc]).outcome
        = .json 200 (.docs body) ∧
      body.getD [] = [nilDoc, soupDoc].filter
        (fun d => decide (d.lookup "server" = some (.str "ann"))) ∧
      (∀ d, d ∈ body.getD [] ↔ d ∈ [nilDoc, soupDoc] ∧ d.lookup "server" = some (.str "ann")) ∧
      (body = none ↔ ∀ d ∈ [nilDoc, soupDoc], d.lookup "server" ≠ some (.str "ann")) :=
  GetOrdersByWaiter_exact_matches laxEnv ⟨"", "ann", ""⟩ [nilDoc, soupDoc] rfl rfl

/-- C8: `UpdateWaiter` does not set `server` to the value of the body. For the
stored `soupDoc` (server `ann`) and the body `{"server":"bob"}` the update that
is issued sets `server` to null, the stored document ends with a null server,
and the answer is 200 with count 1. -/
theorem UpdateWaiter_writes_null :
    (UpdateWaiter laxEnv
        ⟨"507f1f77bcf86cd799439011", "", "\x7b\"server\":\"bob\"\x7d"⟩ [soupDoc]).ops
      = [.updateOne [("_id", .oid sampleId)] [("server", .null)]] ∧
    (UpdateWaiter laxEnv
        ⟨"507f1f77bcf86cd799439011", "", "\x7b\"server\":\"bob\"\x7d"⟩ [soupDoc]).store
      = [[("_id", .oid sampleId), ("dish", .str "soup"), ("price", .num 5),
          ("server", .null), ("table", .str "t1")]] ∧
    (UpdateWaiter laxEnv
        ⟨"507f1f77bcf86cd799439011", "", "\x7b\"server\":\"bob\"\x7d"⟩ [soupDoc]).outcome
      = .json 200 (.count 1) := by
  decide

/-- C9: the timeout of a handler is 100 seconds, and `cancel` runs exactly on
the runs that end with status 200, for each of the seven handlers; so the
early returns leave the timeout unreleased: `GetOrderById` on an id that does
not parse, `AddOrder` on a failed insertion, `UpdateOrder` on a malformed
body. -/
theorem cancel_runs_only_on_success :
    (∀ (env : Env) (req : Request) (db : Store),
      ∀ h ∈ [AddOrder, GetOrders, GetOrdersByWaiter, GetOrderById, UpdateWaiter,
             UpdateOrder, DeleteOrder],
        (h env req db).timeout = 100 ∧
        ((h env req db).cancelled = true ↔ ∃ b, (h env req db).outcome = .json 200 b)) ∧
    (GetOrderById laxEnv ⟨"xyz", "", ""⟩ [soupDoc]).outcome
      = .json 500 (.error .errInvalidHex) ∧
    (GetOrderById laxEnv ⟨"xyz", "", ""⟩ [soupDoc]).cancelled = false ∧
    (AddOrder downEnv ⟨"", "", soupBody⟩ [soupDoc]).outcome
      = .json 500 (.errorText "order item was not created") ∧
    (AddOrder downEnv ⟨"", "", soupBody⟩ [soupDoc]).cancelled = false ∧
    (UpdateOrder strictEnv ⟨"507f1f77bcf86cd799439011", "", "\x7b"⟩ [soupDoc]).outcome
      = .json 400 (.error (.other "unexpected EOF")) ∧
    (UpdateOrder strictEnv ⟨"507f1f77bcf86cd799439011", "", "\x7b"⟩ [soupDoc]).cancelled
      = false := by
  refine ⟨?_, by decide, by decide, by decide, by decide, by decide, by decide⟩
  intro env req db h hh
  simp only [List.mem_cons, List.mem_singleton, List.not_mem_nil, or_false] at hh
  rcases hh with rfl | rfl | rfl | rfl | rfl | rfl | rfl
  · unfold AddOrder
    simp only
    split
    · split <;> simp [StatusBadRequest]
    · split <;> simp [StatusInternalServerError, StatusOK]
  · unfold GetOrders
    simp only
    split
    · simp [StatusInternalServerError]
    · split <;> simp [StatusInternalServerError, StatusOK]
  · unfold GetOrdersByWaiter
    simp only
    split
    · simp [StatusInternalServerError]
    · split <;> simp [StatusInternalServerError, StatusOK]
  · unfold GetOrderById
    simp only
    split
    · simp [StatusInternalServerError]
    · split <;> simp [StatusInternalServerError, StatusOK]
  · unfold UpdateWaiter
    simp only
    split
    · simp [StatusInternalServerError]
    · split <;> simp [StatusInternalServerError, StatusOK]
  · unfold UpdateOrder
    simp only
    split
    · simp [StatusBadRequest]
    · split
      · simp [StatusBadRequest]
      · split <;> simp [StatusInternalServerError, StatusOK]
  · unfold DeleteOrder
    simp only
    split <;> simp [StatusInternalServerError, StatusOK]

/-- C10: for a path id that does not parse, `DeleteOrder` and `UpdateOrder`
do not stop: they issue their delete, resp. replace, with the filter `_id` =
the zero-value identifier. When the store answers, the answer is 200 with the
count of the store: `DeleteOrder` reports 1 and removes the document when a
document carries the zero-value id, and reports 0 and changes nothing when
none does; `UpdateOrder` reports 0 or 1, 0 exactly when the collection is
unchanged, 1 when the document under the zero-value id differs from the
replacement, and that document is replaced. From `DeleteOrder` a status other
than 200 comes from a failing store call only, from `UpdateOrder` from a
failing store call or a body that does not bind or validate. `GetOrderById`
and `UpdateWaiter` answer 500 with the parse error. -/
theorem malformed_id_is_not_checked (env : Env) (req : Request) (db : Store) (e : GoError)
    (hid : ObjectIDFromHex req.id = .error e) :
    (DeleteOrder env req db).ops = [.deleteOne [("_id", .oid NilObjectID)]] ∧
    (env.fault = none →
      ((∃ d ∈ db, docId d = some (.oid NilObjectID)) →
        (DeleteOrder env req db).outcome = .json 200 (.count 1) ∧
        (DeleteOrder env req db).store.length + 1 = db.length) ∧
      ((∀ d ∈ db, docId d ≠ some (.oid NilObjectID)) →
        (DeleteOrder env req db).outcome = .json 200 (.count 0) ∧
        (DeleteOrder env req db).store = db) ∧
      (db.WF → (DeleteOrder env req db).store
        = db.filter (fun d => decide (docId d ≠ some (.oid NilObjectID))))) ∧
    (∀ status body, (DeleteOrder env req db).outcome = .json status body → status ≠ 200 →
      env.fault ≠ none) ∧
    (∀ o, env.bindJSON req.body = .ok o → env.validateStruct o = none →
      (UpdateOrder env req db).ops
        = [.replaceOne [("_id", .oid NilObjectID)]
            [("dish", o.Dish), ("price", o.Price), ("server", o.Server), ("table", o.Table)]] ∧
      (env.fault = none →
        (∃ n, (UpdateOrder env req db).outcome = .json 200 (.count n) ∧ n ≤ 1 ∧
          (n = 0 ↔ (UpdateOrder env req db).store = db)) ∧
        ((∀ d ∈ db, docId d ≠ some (.oid NilObjectID)) →
          (UpdateOrder env req db).outcome = .json 200 (.count 0) ∧
          (UpdateOrder env req db).store = db) ∧
        (db.WF → ∀ d ∈ db, docId d = some (.oid NilObjectID) →
          (UpdateOrder env req db).outcome
            = .json 200 (.count (if d = [("_id", .oid NilObjectID), ("dish", o.Dish),
                ("price", o.Price), ("server", o.Server), ("table", o.Table)] then 0 else 1))) ∧
        (db.WF → (UpdateOrder env req db).store
          = db.map (fun d => if docId d = some (.oid NilObjectID) then
              [("_id", .oid NilObjectID), ("dish", o.Dish), ("price", o.Price),
               ("server", o.Server), ("table", o.Table)] else d))) ∧
      (∀ status body, (UpdateOrder env req db).outcome = .json status body → status ≠ 200 →
        env.fault ≠ none)) ∧
    (GetOrderById env req db).outcome = .json 500 (.error e) ∧
    (UpdateWaiter env req db).outcome = .json 500 (.error e) := by
  have hp := parsedOrNil_of_error hid
  refine ⟨?_, ?_, ?_, ?_, ?_, ?_⟩
  · cases hf : env.fault <;> simp [DeleteOrder, deleteOne, hf, hp]
  · intro hf
    have hstore : (DeleteOrder env req db).store
        = db.eraseP (matchesFilter [("_id", .oid NilObjectID)]) := by
      simp [DeleteOrder, deleteOne, hf, hp]
    refine ⟨?_, ?_, ?_⟩
    · rintro ⟨d, hd, hdid⟩
      have hany : db.any (matchesFilter [("_id", .oid NilObjectID)]) = true :=
        List.any_eq_true.2 ⟨d, hd, (matchesFilter_id _ d).2 hdid⟩
      constructor
      · simp [DeleteOrder, deleteOne, hf, hp, hany, StatusOK]
      · rw [hstore, List.length_eraseP_of_mem hd ((matchesFilter_id _ d).2 hdid)]
        have : 0 < db.length := List.length_pos_of_mem hd
        omega
    · intro hno
      have hany : db.any (matchesFilter [("_id", .oid NilObjectID)]) = false := by
        rw [List.any_eq_false]
        intro d hd hm
        exact hno d hd ((matchesFilter_id _ d).1 hm)
      constructor
      · simp [DeleteOrder, deleteOne, hf, hp, hany, StatusOK]
      · rw [hstore]
        apply List.eraseP_of_forall_not
        intro d hd hm
        exact hno d hd ((matchesFilter_id _ d).1 hm)
    · intro hwf
      rw [hstore, eraseP_eq_filter_of_nodup (matchesFilter_id (.oid NilObjectID)) db hwf.2]
  · intro status body h hs hf
    simp [DeleteOrder, deleteOne, hf, StatusOK] at h
    exact hs h.1.symm
  · intro o hb hv
    have hr := replaceOne_without_id db [("_id", .oid NilObjectID)] (replacementOf o)
      (replacementOf_lookup_id o)
    refine ⟨?_, ?_, ?_⟩
    · change _ = [.replaceOne [("_id", .oid NilObjectID)] (replacementOf o)]
      cases hrep : replaceOne env.fault db [("_id", .oid NilObjectID)] (replacementOf o) <;>
        simp [UpdateOrder, hb, hv, hp, hrep]
    · intro hf
      have hstore : (UpdateOrder env req db).store
          = modifyFirst (matchesFilter [("_id", .oid NilObjectID)])
              (replacementFor (replacementOf o)) db := by
        simp [UpdateOrder, hb, hv, hp, hf, hr]
      have hout : (UpdateOrder env req db).outcome
          = .json 200 (.count (modifiedCount (matchesFilter [("_id", .oid NilObjectID)])
              (replacementFor (replacementOf o)) db)) := by
        simp [UpdateOrder, hb, hv, hp, hf, hr, StatusOK]
      refine ⟨⟨_, hout, modifiedCount_le_one _ _ db, ?_⟩, ?_, ?_, ?_⟩
      · rw [hstore]
        exact modifiedCount_eq_zero_iff _ _ db
      · intro hno
        have hfind := find?_eq_none_of_no_id (matchesFilter_id (.oid NilObjectID)) db hno
        constructor
        · rw [hout]
          simp [modifiedCount, hfind]
        · rw [hstore]
          exact modifyFirst_of_find?_none _ _ db hfind
      · intro hwf d hd hdid
        have hfind := find?_eq_some_of_id (matchesFilter_id (.oid NilObjectID)) db d hwf.2 hd hdid
        have hfd : replacementFor (replacementOf o) d
            = [("_id", .oid NilObjectID), ("dish", o.Dish), ("price", o.Price),
               ("server", o.Server), ("table", o.Table)] := by
          simp [hdid, replacementFor, replacementOf, List.lookup]
        rw [hout]
        simp only [modifiedCount, hfind, hfd]
        by_cases hsame : d = [("_id", .oid NilObjectID), ("dish", o.Dish), ("price", o.Price),
               ("server", o.Server), ("table", o.Table)]
        · rw [if_pos hsame, if_pos hsame.symm]
        · rw [if_neg hsame, if_neg (fun h => hsame h.symm)]
      · intro hwf
        rw [hstore, modifyFirst_eq_map_of_nodup (matchesFilter_id (.oid NilObjectID)) _ db hwf.2]
        apply List.map_congr_left
        intro d _
        by_cases hd : docId d = some (.oid NilObjectID)
        · simp [hd, replacementFor, replacementOf, List.lookup]
        · simp [hd]
    · intro status body h hs hf
      simp [UpdateOrder, hb, hv, hp, hf, hr, StatusOK] at h
      exact hs h.1.symm
  · simp [GetOrderById, hid, StatusInternalServerError]
  · simp [UpdateWaiter, hid, StatusInternalServerError]

/-- Witness of C10: the id `xyz` makes `DeleteOrder` delete the document under
the zero-value id and report count 1, and makes `UpdateOrder` replace that
document and report count 1. -/
theorem malformed_id_is_not_checked_witness :
    (DeleteOrder laxEnv ⟨"xyz", "", soupBody⟩ [nilDoc, soupDoc]).ops
        = [.deleteOne [("_id", .oid NilObjectID)]] ∧
    (DeleteOrder laxEnv ⟨"xyz", "", soupBody⟩ [nilDoc, soupDoc]).outcome
        = .json 200 (.count 1) ∧
    (DeleteOrder laxEnv ⟨"xyz", "", soupBody⟩ [nilDoc, soupDoc]).store
        = [nilDoc, soupDoc].filter (fun d => decide (docId d ≠ some (.oid NilObjectID))) ∧
    (UpdateOrder laxEnv ⟨"xyz", "", soupBody⟩ [nilDoc, soupDoc]).outcome
        = .json 200 (.count 1) :=
  have h := malformed_id_is_not_checked laxEnv ⟨"xyz", "", soupBody⟩ [nilDoc, soupDoc]
    .errInvalidHex rfl
  ⟨h.1, ((h.2.1 rfl).1 ⟨nilDoc, by decide, rfl⟩).1, (h.2.1 rfl).2.2 (by decide),
    ((h.2.2.2.1 soup rfl rfl).2.1 rfl).2.2.1 (by decide) nilDoc (by decide) rfl⟩

end Routes
